import Mathlib

/-!
Shallow embedding of the i3stat bar-rendering core (`src/bar.rs`) and the
network-interface filter (`src/bar_items/nic.rs`), together with theorems
settling the specified properties of the powerline renderer, the colour
adjuster, serialization, and filter string round-tripping.

Machine integers (`u8`) are modelled as `Nat` with explicit saturation at
255; Rust panics (index out of range, remainder by zero, `unwrap` of
`None`) are modelled by `Option`/`Except` results.
-/

/-- RGB colour with one `Nat` per channel, modelling the `hex_color`
crate's `HexColor` (`r g b : u8`).  The `u8` arithmetic used on channels
(`abs_diff`, `saturating_add`) is modelled explicitly below. -/
structure HexColor where
  r : Nat
  g : Nat
  b : Nat
deriving DecidableEq, Repr

/-- Rust `u8::abs_diff`: `if self < other { other - self } else { self - other }`. -/
def u8_abs_diff (a b : Nat) : Nat :=
  if a < b then b - a else a - b

/-- Rust `u8::saturating_add`: addition clamped at the channel maximum 255. -/
def u8_saturating_add (a b : Nat) : Nat :=
  min (a + b) 255

/-- Uppercase hexadecimal digit, as produced by the `hex_color` crate's
display implementation. -/
def hexDigit (n : Nat) : Char :=
  if n < 10 then Char.ofNat (48 + n) else Char.ofNat (55 + n)

/-- Two-digit uppercase hexadecimal rendering of one byte. -/
def byteHex (n : Nat) : List Char :=
  [hexDigit (n / 16 % 16), hexDigit (n % 16)]

/-- `HexColor::to_string()` of the `hex_color` crate: `#RRGGBB` uppercase. -/
def HexColor.toDisplay (c : HexColor) : String :=
  String.mk ('#' :: (byteHex c.r ++ byteHex c.g ++ byteHex c.b))

/-- Modelled from the spec: `markup: {Plain, Pango}` (the `I3Markup` enum of
`src/i3.rs`, which is not part of the excerpt). -/
inductive I3Markup
  | plain
  | pango
deriving DecidableEq, Repr

/-- Modelled from the spec: the Item value type of §3 (`I3Item` of
`src/i3.rs`, not part of the excerpt): visible text, optional colours and
flags, the slot-correlation `instance` string (field named `inst` here
because `instance` is a Lean keyword), and the extra-data mapping.  Only
boolean extra-data values occur in the modelled code, so the mapping is an
association list from keys to `Bool`.  Optional flags start unset
(`none`); the renderer reads them with a `false` default, matching the
source's `get_urgent().unwrap_or(&false)`. -/
structure I3Item where
  full_text : String
  short_text : Option String := none
  color : Option HexColor := none
  background_color : Option HexColor := none
  markup : I3Markup := I3Markup.plain
  separator : Option Bool := none
  separator_block_width_px : Option Nat := none
  urgent : Option Bool := none
  inst : Option String := none
  extra : List (String × Bool) := []
deriving DecidableEq, Repr

/-- Modelled from the spec: `I3Item::new` sets the visible text. -/
def I3Item.new (t : String) : I3Item :=
  { full_text := t }

/-- Modelled from the spec: the empty sentinel item (§4.1: a sentinel Item
whose presence is excluded from rendering). -/
def I3Item.empty : I3Item :=
  I3Item.new ""

/-- Modelled from the spec: an item is empty when its text is empty
(§4.5: visible = items with non-empty text). -/
def I3Item.is_empty (x : I3Item) : Bool :=
  x.full_text == ""

/-- One `{fg, bg}` powerline band (`ColorSet` pair in the theme). -/
structure ColorPair where
  fg : HexColor
  bg : HexColor
deriving DecidableEq, Repr

/-- Modelled from the spec: the Theme of §3 (`src/theme.rs`, not part of
the excerpt): palette colours, `powerline_enable`, the cyclic band list
and the separator glyph.  The separator's pango-span rendering
(`to_span()`) is modelled as the glyph string itself, following §4.5
(`text = theme.powerline_separator`). -/
structure Theme where
  bg : HexColor
  fg : HexColor
  dim : HexColor
  red : HexColor
  orange : HexColor
  yellow : HexColor
  green : HexColor
  powerline_enable : Bool
  powerline : List ColorPair
  powerline_separator : String
deriving DecidableEq, Repr

/-- The `Bar` struct of `src/bar.rs`: the item slots plus the `OnceCell`
cache for the dim-colour adjuster.  The cached closure of the source
captures exactly the three per-channel deltas computed by
`make_color_adjuster`, so the cache is modelled as those deltas. -/
structure Bar where
  items : List I3Item
  dim_adjuster : Option HexColor := none
deriving DecidableEq

/-- The environment captured by the closure returned by
`make_color_adjuster(bg, fg)` in `src/bar.rs` lines 176-179: the
per-channel `abs_diff` of the two colours. -/
def mkDeltas (bg fg : HexColor) : HexColor :=
  ⟨u8_abs_diff fg.r bg.r, u8_abs_diff fg.g bg.g, u8_abs_diff fg.b bg.b⟩

/-- The body of the closure returned by `make_color_adjuster` in
`src/bar.rs` lines 180-186: per-channel saturating addition of the
captured deltas to the argument colour. -/
def applyAdjuster (d c : HexColor) : HexColor :=
  ⟨u8_saturating_add d.r c.r, u8_saturating_add d.g c.g, u8_saturating_add d.b c.b⟩

/-- `make_color_adjuster` of `src/bar.rs` lines 176-187. -/
def make_color_adjuster (bg fg : HexColor) : HexColor → HexColor :=
  fun c => applyAdjuster (mkDeltas bg fg) c

/-- The computed background of a visible item in `create_powerline`
(`src/bar.rs` lines 106-113): `theme.red` when urgent, else the item's
explicit background colour, else the assigned band's `bg`. -/
def itemBgOf (θ : Theme) (x : I3Item) (this_color : ColorPair) : HexColor :=
  if x.urgent.getD false then θ.red else x.background_color.getD this_color.bg

/-- The loop body of `create_powerline` for one visible item
(`src/bar.rs` lines 104-167): builds the separator item and the content
item.  `inst` is the decimal slot index, `δ` the adjuster deltas in use,
`prev` the item of the immediately preceding slot (`none` iff the slot
index is 0), and `prev_color`/`this_color` the fetched bands. -/
def renderVisible (θ : Theme) (inst : String) (δ : HexColor) (prev : Option I3Item)
    (prev_color this_color : ColorPair) (x : I3Item) : I3Item × I3Item :=
  let is_urgent := x.urgent.getD false
  let item_fg := if is_urgent then θ.bg else this_color.fg
  let item_bg := itemBgOf θ x this_color
  let sep0 : I3Item :=
    { full_text := θ.powerline_separator,
      inst := some inst,
      separator := some false,
      markup := I3Markup.pango,
      separator_block_width_px := some 0,
      color := some item_bg,
      extra := [("powerline_sep", true)] }
  let sep : I3Item :=
    match prev with
    | none => sep0
    | some p =>
      let prev_bg := if p.urgent.getD false then θ.red else p.background_color.getD prev_color.bg
      { sep0 with background_color := some prev_bg }
  let adjusted_dim := applyAdjuster δ item_bg
  let content : I3Item :=
    { x with
      full_text := " " ++ (x.full_text.replace θ.dim.toDisplay adjusted_dim.toDisplay) ++ " ",
      separator := some false,
      separator_block_width_px := some 0,
      color := some (if is_urgent then item_fg
                     else match x.color with
                          | some c => if c = θ.dim then adjusted_dim else c
                          | none => item_fg),
      background_color := some item_bg,
      urgent := some false,
      extra := x.extra ++ [("urgent", true)] }
  (sep, content)

/-- The loop of `create_powerline` (`src/bar.rs` lines 91-168).  `cache`
threads the `OnceCell` contents, `prev` carries the previous slot's item
(`none` at slot 0), `i` the slot index, `idx` the powerline cursor.  Band
fetches use `List.get?`, returning `none` where the Rust indexing would
panic. -/
def powerlineGo (θ : Theme) :
    Option HexColor → Option I3Item → Nat → Nat → List I3Item →
      Option (List I3Item × Option HexColor)
  | cache, _, _, _, [] => some ([], cache)
  | cache, prev, i, idx, x :: rest =>
    if x.is_empty then
      powerlineGo θ cache (some x) (i + 1) idx rest
    else
      (θ.powerline.get? (idx % θ.powerline.length)).bind fun prev_color =>
      (θ.powerline.get? ((idx + 1) % θ.powerline.length)).bind fun this_color =>
      let δ := cache.getD (mkDeltas θ.bg θ.dim)
      let pr := renderVisible θ (toString i) δ prev prev_color this_color x
      (powerlineGo θ (some δ) (some x) (i + 1) (idx + 1) rest).map
        (fun oc => (pr.1 :: pr.2 :: oc.1, oc.2))

/-- `create_powerline`'s count of visible items (`src/bar.rs` line 84). -/
def countVisible (items : List I3Item) : Nat :=
  (items.filter (fun x => !x.is_empty)).length

/-- The initial powerline cursor (`src/bar.rs` line 89):
`powerline_len - (visible_items % powerline_len)`. -/
def initIdx (L v : Nat) : Nat :=
  L - v % L

/-- `Bar::create_powerline` (`src/bar.rs` lines 83-171).  Returns the
emitted item list together with the final adjuster cache; `none` models
the panic on an empty band list (`visible % 0`) or an out-of-range band
access. -/
def create_powerline (θ : Theme) (b : Bar) : Option (List I3Item × Option HexColor) :=
  let L := θ.powerline.length
  if L = 0 then none
  else powerlineGo θ b.dim_adjuster none 0 (initIdx L (countVisible b.items)) b.items

/-- `Bar::to_json` (`src/bar.rs` lines 59-68).  `serde_json::to_string`
is a deterministic, injective encoding of the item list, so the output is
modelled at the value level as that list; the returned `Bar` carries the
possibly-initialized adjuster cache (the `OnceCell` interior mutation). -/
def to_json (θ : Theme) (b : Bar) : Option (List I3Item × Bar) :=
  if θ.powerline_enable then
    (create_powerline θ b).map (fun p => (p.1, { b with dim_adjuster := p.2 }))
  else
    some (b.items, b)

/-- Total band lookup used to state closed forms of the renderer:
`theme.powerline[n % len]`, with a default that is never reached when the
band list is non-empty. -/
def bandAt (θ : Theme) (n : Nat) : ColorPair :=
  (θ.powerline.get? (n % θ.powerline.length)).getD ⟨⟨0, 0, 0⟩, ⟨0, 0, 0⟩⟩

/-- Enumeration of the visible items of a slot list, each with its slot
index and the item of the immediately preceding slot (`none` iff slot 0):
the traversal order of `create_powerline`'s loop. -/
def visEnum : Option I3Item → Nat → List I3Item → List (Nat × Option I3Item × I3Item)
  | _, _, [] => []
  | prev, i, x :: rest =>
    if x.is_empty then visEnum (some x) (i + 1) rest
    else (i, prev, x) :: visEnum (some x) (i + 1) rest

/-- Closed form of the renderer loop: one (separator, content) pair per
enumerated visible item, with the cursor advancing by one per item. -/
def flatRender (θ : Theme) (δ : HexColor) : Nat → List (Nat × Option I3Item × I3Item) → List I3Item
  | _, [] => []
  | idx, (i, p, x) :: rest =>
    let pr := renderVisible θ (toString i) δ p (bandAt θ idx) (bandAt θ (idx + 1)) x
    pr.1 :: pr.2 :: flatRender θ δ (idx + 1) rest

/-- The colour given to the content item by `create_powerline`
(`src/bar.rs` lines 156-161), as a function of the item, the assigned
band and the adjuster deltas in use. -/
def contentColor (θ : Theme) (δ : HexColor) (tc : ColorPair) (x : I3Item) : HexColor :=
  if x.urgent.getD false then θ.bg
  else
    match x.color with
    | some c => if c = θ.dim then applyAdjuster δ (itemBgOf θ x tc) else c
    | none => tc.fg

/-- The band fetched as `prev_color` for the `k`-th visible item of a
bar: the cursor starts at `initIdx` and advances once per visible item. -/
def prevBand (θ : Theme) (b : Bar) (k : Nat) : ColorPair :=
  bandAt θ (initIdx θ.powerline.length (countVisible b.items) + k)

/-- The band fetched as `this_color` for (and so assigned to) the `k`-th
visible item of a bar. -/
def assignedBand (θ : Theme) (b : Bar) (k : Nat) : ColorPair :=
  bandAt θ (initIdx θ.powerline.length (countVisible b.items) + k + 1)

/-- Modelled from the spec: `InterfaceKind` of `src/net.rs` (not part of
the excerpt), the optional `type` part of an interface filter; the tests
in `src/bar_items/nic.rs` pin its textual encoding to `v4`/`v6` in both
directions. -/
inductive InterfaceKind
  | v4
  | v6
deriving DecidableEq, Repr

/-- Modelled from the spec: `InterfaceKind`'s `to_string`, pinned by the
`nic.rs` tests (`bar:v4`, `baz:v6`). -/
def InterfaceKind.toStr : InterfaceKind → List Char
  | InterfaceKind.v4 => ['v', '4']
  | InterfaceKind.v6 => ['v', '6']

/-- Modelled from the spec: `InterfaceKind`'s `FromStr`, pinned by the
`nic.rs` tests (parsing `v4`/`v6` succeeds with the matching kind). -/
def interfaceKindFromStr (s : List Char) : Except String InterfaceKind :=
  if s = ['v', '4'] then Except.ok InterfaceKind.v4
  else if s = ['v', '6'] then Except.ok InterfaceKind.v6
  else Except.error "invalid interface kind"

/-- `InterfaceFilter` of `src/bar_items/nic.rs` lines 55-59.  Rust
strings are modelled as character lists so that the delimiter search of
`from_str` is a plain recursion. -/
structure InterfaceFilter where
  name : List Char
  kind : Option InterfaceKind
deriving DecidableEq, Repr

/-- `InterfaceFilter::to_string` (`src/bar_items/nic.rs` lines 83-90):
`name:kind` when a kind is present, else just the name. -/
def InterfaceFilter.to_string (f : InterfaceFilter) : List Char :=
  match f.kind with
  | some k => f.name ++ ':' :: k.toStr
  | none => f.name

/-- Rust `str::split_once(':')`: the parts before and after the first
colon, or `none` when there is no colon. -/
def splitOnceColon : List Char → Option (List Char × List Char)
  | [] => none
  | c :: rest =>
    if c = ':' then some ([], rest)
    else (splitOnceColon rest).map (fun p => (c :: p.1, p.2))

/-- `InterfaceFilter::from_str` (`src/bar_items/nic.rs` lines 92-108):
no colon means a bare name filter; otherwise split at the first colon and
parse the kind.  The `unwrap` after the contains-check is modelled by the
unreachable error branch. -/
def InterfaceFilter.from_str (s : List Char) : Except String InterfaceFilter :=
  if !(s.contains ':') then Except.ok ⟨s, none⟩
  else
    match splitOnceColon s with
    | some (name, kind) =>
      match interfaceKindFromStr kind with
      | Except.ok k => Except.ok ⟨name, some k⟩
      | Except.error e => Except.error e
    | none => Except.error "unreachable: delimiter was checked above"

/-- Concrete theme with two powerline bands, used to evaluate the
renderer on concrete bars. -/
def exThemeP : Theme :=
  { bg := ⟨0, 0, 0⟩, fg := ⟨204, 204, 204⟩, dim := ⟨104, 104, 104⟩, red := ⟨220, 60, 60⟩,
    orange := ⟨255, 165, 0⟩, yellow := ⟨255, 255, 0⟩, green := ⟨0, 255, 0⟩,
    powerline_enable := true,
    powerline := [⟨⟨1, 1, 1⟩, ⟨32, 32, 32⟩⟩, ⟨⟨2, 2, 2⟩, ⟨64, 64, 64⟩⟩],
    powerline_separator := "S" }

/-- The same concrete theme with powerline rendering disabled. -/
def exThemeRaw : Theme :=
  { exThemeP with powerline_enable := false }

/-- Concrete visible item. -/
def exItemA : I3Item :=
  { I3Item.new "A" with
    inst := some "1", urgent := some false }

/-- Concrete bar whose slot 0 is empty and slot 1 visible. -/
def exBarEA : Bar :=
  { items := [I3Item.empty, exItemA] }

/-- Concrete bar with a single visible, non-urgent item. -/
def exBarA : Bar :=
  { items := [{ I3Item.new "A" with
    inst := some "0", urgent := some false }] }

/-- Concrete bar with a single empty slot. -/
def exBarEmpty : Bar :=
  { items := [I3Item.empty] }

/-- Theme whose dim colour sits below the reference background on every
channel, so the dim adjustment can reproduce the dim colour itself on a
background different from the reference one. -/
def exTheme6 : Theme :=
  { bg := ⟨10, 10, 10⟩, fg := ⟨204, 204, 204⟩, dim := ⟨8, 8, 8⟩, red := ⟨220, 60, 60⟩,
    orange := ⟨255, 165, 0⟩, yellow := ⟨255, 255, 0⟩, green := ⟨0, 255, 0⟩,
    powerline_enable := true,
    powerline := [⟨⟨1, 1, 1⟩, ⟨5, 5, 5⟩⟩],
    powerline_separator := "S" }

/-- Item coloured exactly `exTheme6.dim`, on an explicit background that
differs from the reference background. -/
def exItem6 : I3Item :=
  { I3Item.new "x" with
    inst := some "0", color := some ⟨8, 8, 8⟩, background_color := some ⟨6, 6, 6⟩ }

/-- Bar holding `exItem6` alone. -/
def exBar6 : Bar :=
  { items := [exItem6] }

/-- Item coloured exactly `exThemeP.dim` on an explicit background,
with no channel saturating under adjustment. -/
def exItem6w : I3Item :=
  { I3Item.new "x" with
    inst := some "0", color := some ⟨104, 104, 104⟩, background_color := some ⟨10, 20, 30⟩ }

/-- Bar holding `exItem6w` alone. -/
def exBar6w : Bar :=
  { items := [exItem6w] }

/-- Concrete interface filter with a name free of colons. -/
def exFilter : InterfaceFilter :=
  ⟨['e', 't', 'h', '0'], some InterfaceKind.v4⟩

theorem countVisible_nil : countVisible [] = 0 := rfl

theorem countVisible_cons (x : I3Item) (xs : List I3Item) :
    countVisible (x :: xs) = if x.is_empty then countVisible xs else countVisible xs + 1 := by
  simp only [countVisible, List.filter]
  by_cases h : x.is_empty <;> simp [h]

theorem bandAt_get? (θ : Theme) (n : Nat) (hL : 1 ≤ θ.powerline.length) :
    θ.powerline.get? (n % θ.powerline.length) = some (bandAt θ n) := by
  have h : n % θ.powerline.length < θ.powerline.length := Nat.mod_lt _ (by omega)
  simp [bandAt, List.get?_eq_get h, List.getElem?_eq_getElem h]

theorem powerlineGo_eq (θ : Theme) (hL : 1 ≤ θ.powerline.length) (xs : List I3Item) :
    ∀ (cache : Option HexColor) (prev : Option I3Item) (i idx : Nat),
      powerlineGo θ cache prev i idx xs =
        some (flatRender θ (cache.getD (mkDeltas θ.bg θ.dim)) idx (visEnum prev i xs),
              if countVisible xs = 0 then cache else some (cache.getD (mkDeltas θ.bg θ.dim))) := by
  induction xs with
  | nil =>
    intro cache prev i idx
    simp [powerlineGo, flatRender, visEnum, countVisible]
  | cons x rest ih =>
    intro cache prev i idx
    by_cases h : x.is_empty
    · simp [powerlineGo, h, visEnum, countVisible_cons, ih]
    · rw [powerlineGo, if_neg h, bandAt_get? θ idx hL, bandAt_get? θ (idx + 1) hL]
      simp only [Option.some_bind]
      rw [ih]
      simp [visEnum, h, flatRender, countVisible_cons]

theorem create_powerline_eq (θ : Theme) (b : Bar) (hL : 1 ≤ θ.powerline.length) :
    create_powerline θ b =
      some (flatRender θ (b.dim_adjuster.getD (mkDeltas θ.bg θ.dim))
              (initIdx θ.powerline.length (countVisible b.items)) (visEnum none 0 b.items),
            if countVisible b.items = 0 then b.dim_adjuster
            else some (b.dim_adjuster.getD (mkDeltas θ.bg θ.dim))) := by
  rw [create_powerline]
  simp only [show ¬(θ.powerline.length = 0) from by omega, if_false]
  exact powerlineGo_eq θ hL b.items b.dim_adjuster none 0 _

theorem visEnum_length (xs : List I3Item) :
    ∀ (prev : Option I3Item) (i : Nat), (visEnum prev i xs).length = countVisible xs := by
  induction xs with
  | nil => intro prev i; simp [visEnum, countVisible]
  | cons x rest ih =>
    intro prev i
    by_cases h : x.is_empty <;> simp [visEnum, h, countVisible_cons, ih]

theorem flatRender_length (θ : Theme) (δ : HexColor) (l : List (Nat × Option I3Item × I3Item)) :
    ∀ idx : Nat, (flatRender θ δ idx l).length = 2 * l.length := by
  induction l with
  | nil => intro idx; simp [flatRender]
  | cons e rest ih =>
    intro idx
    obtain ⟨i, p, x⟩ := e
    simp [flatRender, ih]
    omega

theorem flatRender_get?_sep (θ : Theme) (δ : HexColor) (l : List (Nat × Option I3Item × I3Item)) :
    ∀ (idx k i : Nat) (p : Option I3Item) (x : I3Item), l.get? k = some (i, p, x) →
      (flatRender θ δ idx l).get? (2 * k) =
        some (renderVisible θ (toString i) δ p (bandAt θ (idx + k)) (bandAt θ (idx + k + 1)) x).1 := by
  induction l with
  | nil => intro idx k i p x hk; simp at hk
  | cons e rest ih =>
    intro idx k i p x hk
    obtain ⟨j, q, y⟩ := e
    cases k with
    | zero =>
      simp at hk
      obtain ⟨h1, h2, h3⟩ := hk
      subst h1; subst h2; subst h3
      simp [flatRender]
    | succ k =>
      simp only [List.get?_cons_succ] at hk
      have hr := ih (idx + 1) k i p x hk
      rw [show idx + 1 + k = idx + (k + 1) from by omega] at hr
      rw [show 2 * (k + 1) = (2 * k) + 1 + 1 from by omega]
      simp only [flatRender, List.get?_cons_succ]
      exact hr

theorem flatRender_get?_content (θ : Theme) (δ : HexColor)
    (l : List (Nat × Option I3Item × I3Item)) :
    ∀ (idx k i : Nat) (p : Option I3Item) (x : I3Item), l.get? k = some (i, p, x) →
      (flatRender θ δ idx l).get? (2 * k + 1) =
        some (renderVisible θ (toString i) δ p (bandAt θ (idx + k)) (bandAt θ (idx + k + 1)) x).2 := by
  induction l with
  | nil => intro idx k i p x hk; simp at hk
  | cons e rest ih =>
    intro idx k i p x hk
    obtain ⟨j, q, y⟩ := e
    cases k with
    | zero =>
      simp at hk
      obtain ⟨h1, h2, h3⟩ := hk
      subst h1; subst h2; subst h3
      simp [flatRender]
    | succ k =>
      simp only [List.get?_cons_succ] at hk
      have hr := ih (idx + 1) k i p x hk
      rw [show idx + 1 + k = idx + (k + 1) from by omega] at hr
      rw [show 2 * (k + 1) + 1 = (2 * k + 1) + 1 + 1 from by omega]
      simp only [flatRender, List.get?_cons_succ]
      exact hr

theorem visEnum_spec (xs : List I3Item) :
    ∀ (p0 : Option I3Item) (i0 k j : Nat) (p : Option I3Item) (x : I3Item),
      (visEnum p0 i0 xs).get? k = some (j, p, x) →
        i0 ≤ j ∧ xs.get? (j - i0) = some x ∧
          p = (if j = i0 then p0 else xs.get? (j - i0 - 1)) := by
  induction xs with
  | nil => intro p0 i0 k j p x hk; simp [visEnum] at hk
  | cons y rest ih =>
    intro p0 i0 k j p x hk
    by_cases h : y.is_empty
    · rw [visEnum, if_pos h] at hk
      obtain ⟨h1, h2, h3⟩ := ih (some y) (i0 + 1) k j p x hk
      refine ⟨by omega, ?_, ?_⟩
      · rw [show j - i0 = (j - (i0 + 1)) + 1 from by omega]
        simpa using h2
      · rw [h3]
        by_cases hj : j = i0 + 1
        · simp [hj, show ¬(i0 + 1 = i0) from by omega]
        · rw [if_neg hj, if_neg (show ¬(j = i0) from by omega)]
          rw [show j - i0 - 1 = (j - (i0 + 1) - 1) + 1 from by omega]
          simp
    · rw [visEnum, if_neg h] at hk
      cases k with
      | zero =>
        simp at hk
        obtain ⟨h1, h2, h3⟩ := hk
        subst h1; subst h2; subst h3
        simp
      | succ k =>
        simp only [List.get?_cons_succ] at hk
        obtain ⟨h1, h2, h3⟩ := ih (some y) (i0 + 1) k j p x hk
        refine ⟨by omega, ?_, ?_⟩
        · rw [show j - i0 = (j - (i0 + 1)) + 1 from by omega]
          simpa using h2
        · rw [h3]
          by_cases hj : j = i0 + 1
          · simp [hj, show ¬(i0 + 1 = i0) from by omega]
          · rw [if_neg hj, if_neg (show ¬(j = i0) from by omega)]
            rw [show j - i0 - 1 = (j - (i0 + 1) - 1) + 1 from by omega]
            simp

theorem renderVisible_sep_full_text (θ : Theme) (s : String) (δ : HexColor)
    (prev : Option I3Item) (pc tc : ColorPair) (x : I3Item) :
    (renderVisible θ s δ prev pc tc x).1.full_text = θ.powerline_separator := by
  cases prev <;> simp [renderVisible]

theorem renderVisible_sep_background (θ : Theme) (s : String) (δ : HexColor)
    (prev : Option I3Item) (pc tc : ColorPair) (x : I3Item) :
    (renderVisible θ s δ prev pc tc x).1.background_color =
      prev.map (fun p => if p.urgent.getD false then θ.red else p.background_color.getD pc.bg) := by
  cases prev <;> simp [renderVisible]

theorem renderVisible_content_eq (θ : Theme) (s : String) (δ : HexColor)
    (prev : Option I3Item) (pc tc : ColorPair) (x : I3Item) :
    (renderVisible θ s δ prev pc tc x).2 =
      { x with
        full_text :=
          " " ++ (x.full_text.replace θ.dim.toDisplay
            (applyAdjuster δ (itemBgOf θ x tc)).toDisplay) ++ " ",
        separator := some false,
        separator_block_width_px := some 0,
        color := some (contentColor θ δ tc x),
        background_color := some (itemBgOf θ x tc),
        urgent := some false,
        extra := x.extra ++ [("urgent", true)] } := by
  cases prev <;> by_cases h : x.urgent.getD false <;>
    simp only [renderVisible, contentColor, h, if_true, if_false] <;> rfl

theorem pad_ne_empty (s : String) : " " ++ s ++ " " ≠ "" := by
  intro h
  have hlen := congrArg String.length h
  rw [String.length_append, String.length_append] at hlen
  have h1 : (" " : String).length = 1 := rfl
  have h2 : ("" : String).length = 0 := rfl
  omega

theorem flatRender_not_empty (θ : Theme) (δ : HexColor)
    (hsep : θ.powerline_separator ≠ "") (l : List (Nat × Option I3Item × I3Item)) :
    ∀ (idx : Nat) (y : I3Item), y ∈ flatRender θ δ idx l → y.is_empty = false := by
  induction l with
  | nil => intro idx y hy; simp [flatRender] at hy
  | cons e rest ih =>
    intro idx y hy
    obtain ⟨i, p, x⟩ := e
    simp only [flatRender, List.mem_cons] at hy
    rcases hy with h1 | h1 | h1
    · subst h1
      simp [I3Item.is_empty, renderVisible_sep_full_text, hsep]
    · subst h1
      rw [renderVisible_content_eq]
      simp only [I3Item.is_empty]
      rw [beq_eq_false_iff_ne]
      exact pad_ne_empty _
    · exact ih _ _ h1

theorem hexColor_eq_iff (a b : HexColor) :
    a = b ↔ a.r = b.r ∧ a.g = b.g ∧ a.b = b.b := by
  constructor
  · intro h; subst h; exact ⟨rfl, rfl, rfl⟩
  · intro ⟨h1, h2, h3⟩; cases a; cases b; simp_all

theorem u8_abs_diff_eq_natAbs (a b : Nat) :
    u8_abs_diff a b = ((a : Int) - (b : Int)).natAbs := by
  unfold u8_abs_diff
  split <;> omega

/-- C5: the colour adjuster built from reference background `B0` and dim
foreground `D` maps every new background `B` to the colour whose channel
`c` is `saturating_add(B.c, |D.c - B0.c|)`, clamped at the channel
maximum 255 and never wrapping, for every RGB triple of inputs. -/
theorem claim_C5 (B0 D B : HexColor) :
    make_color_adjuster B0 D B =
      ⟨min (B.r + ((D.r : Int) - (B0.r : Int)).natAbs) 255,
       min (B.g + ((D.g : Int) - (B0.g : Int)).natAbs) 255,
       min (B.b + ((D.b : Int) - (B0.b : Int)).natAbs) 255⟩ ∧
    (make_color_adjuster B0 D B).r ≤ 255 ∧
    (make_color_adjuster B0 D B).g ≤ 255 ∧
    (make_color_adjuster B0 D B).b ≤ 255 := by
  simp only [make_color_adjuster, applyAdjuster, mkDeltas, u8_saturating_add,
    u8_abs_diff_eq_natAbs, HexColor.mk.injEq]
  refine ⟨⟨?_, ?_, ?_⟩, ?_, ?_, ?_⟩ <;> omega

/-- C3: with the cursor initialized to `idx = L - (n mod L)` and advanced
once per visible item, the band index `(idx + n) mod L` computed for the
last of `n ≥ 1` visible items is the constant 0, independent of `n`:
the rightmost item always receives the first band. -/
theorem claim_C3 (n L : Nat) (hn : 1 ≤ n) (hL : 1 ≤ L) :
    (initIdx L n + n) % L = 0 := by
  unfold initIdx
  have hdm := Nat.div_add_mod n L
  have hlt : n % L < L := Nat.mod_lt n (by omega)
  have key : L - n % L + n = L + L * (n / L) := by omega
  rw [key, Nat.add_mul_mod_self_left, Nat.mod_self]

/-- Witness for C3 at `n = 5`, `L = 3`. -/
theorem claim_C3_witness : 1 ≤ 5 ∧ 1 ≤ 3 ∧ (initIdx 3 5 + 5) % 3 = 0 :=
  ⟨by decide, by decide, claim_C3 5 3 (by decide) (by decide)⟩

theorem splitOnceColon_append (rest : List Char) :
    ∀ name : List Char, name.contains ':' = false →
      splitOnceColon (name ++ ':' :: rest) = some (name, rest) := by
  intro name
  induction name with
  | nil => intro h; simp [splitOnceColon]
  | cons c cs ih =>
    intro h
    simp only [List.contains_cons, Bool.or_eq_false_iff] at h
    obtain ⟨h1, h2⟩ := h
    have hc : ¬(c = ':') := by
      intro hcc
      subst hcc
      simp at h1
    simp [List.cons_append, splitOnceColon, if_neg hc, ih h2]

/-- C10: interface-filter string conversion round-trips: for every filter
whose name contains no colon, parsing the `to_string` rendering yields
`Ok` of an equal filter, with name and optional kind preserved; since the
serde serializer and deserializer are exactly `to_string` and `from_str`
on a plain string, serialization followed by deserialization returns the
same filter. -/
theorem claim_C10 (f : InterfaceFilter) (h : f.name.contains ':' = false) :
    InterfaceFilter.from_str (InterfaceFilter.to_string f) = Except.ok f := by
  obtain ⟨name, kind⟩ := f
  cases kind with
  | none =>
    simp only [InterfaceFilter.to_string, InterfaceFilter.from_str]
    simp only at h
    rw [h]
    simp
  | some k =>
    simp only [InterfaceFilter.to_string, InterfaceFilter.from_str]
    simp only at h
    have hc : (name ++ ':' :: k.toStr).contains ':' = true := by
      induction name with
      | nil => simp [List.contains_cons]
      | cons c cs ih =>
        simp only [List.contains_cons, Bool.or_eq_false_iff] at h
        simp [List.contains_cons, ih h.2]
    rw [hc]
    simp only [Bool.not_true, Bool.false_eq_true, if_false]
    rw [splitOnceColon_append k.toStr name h]
    cases k <;> simp [interfaceKindFromStr, InterfaceKind.toStr]

/-- Witness for C10 at the filter `eth0:v4`. -/
theorem claim_C10_witness :
    exFilter.name.contains ':' = false ∧
    InterfaceFilter.from_str (InterfaceFilter.to_string exFilter) = Except.ok exFilter :=
  ⟨by decide, claim_C10 exFilter (by decide)⟩

/-- C2: evaluation at a non-urgent visible item.  The powerline content
item forces `urgent := false` and, for an urgent item, uses `theme.bg` on
`theme.red`; but the extra-data written under the key `urgent` is the
literal `true` for every visible item, so the original urgency (`false`
here) is not retrievable from the output, although the source comment
states the original value is preserved there. -/
theorem claim_C2 :
    (((create_powerline exThemeP exBarA).getD ([], none)).1.getD 1 I3Item.empty).extra.lookup
        "urgent" = some true ∧
    (exBarA.items.getD 0 I3Item.empty).urgent = some false ∧
    (((create_powerline exThemeP exBarA).getD ([], none)).1.getD 1 I3Item.empty).urgent =
      some false := by
  refine ⟨?_, ?_, ?_⟩ <;> decide

/-- C9: when the theme's band list is non-empty, every band access in
`create_powerline` is in bounds and the remainder operations are defined,
so the renderer always returns a result (the panic branch, modelled as
`none`, is unreachable) for every bar state. -/
theorem claim_C9 (θ : Theme) (b : Bar) (hL : 1 ≤ θ.powerline.length) :
    (create_powerline θ b).isSome = true := by
  rw [create_powerline_eq θ b hL]
  rfl

/-- Witness for C9 on a concrete theme and bar. -/
theorem claim_C9_witness :
    1 ≤ exThemeP.powerline.length ∧ (create_powerline exThemeP exBarEA).isSome = true :=
  ⟨by decide, claim_C9 exThemeP exBarEA (by decide)⟩

/-- C8: serialization is idempotent and deterministic: a second `to_json`
call on the bar state returned by a first successful call (the same item
slots, with the adjuster cache possibly initialized by the first call)
yields the same output list, in both powerline and raw modes. -/
theorem create_powerline_some_length_pos (θ : Theme) (b : Bar)
    (p : List I3Item × Option HexColor) (h : create_powerline θ b = some p) :
    1 ≤ θ.powerline.length := by
  by_contra h0
  have hz : θ.powerline.length = 0 := by omega
  simp only [create_powerline] at h
  rw [if_pos hz] at h
  exact Option.noConfusion h

theorem claim_C8 (θ : Theme) (b : Bar) (out : List I3Item) (b1 : Bar)
    (h : to_json θ b = some (out, b1)) :
    ∃ b2, to_json θ b1 = some (out, b2) := by
  by_cases hp : θ.powerline_enable = true
  · rw [to_json, if_pos hp] at h ⊢
    cases hc : create_powerline θ b with
    | none => rw [hc] at h; simp at h
    | some p =>
      rw [hc] at h
      simp only [Option.map_some', Option.some_inj, Prod.mk.injEq] at h
      obtain ⟨hout, hb1⟩ := h
      have hL : 1 ≤ θ.powerline.length := create_powerline_some_length_pos θ b p hc
      rw [create_powerline_eq θ b hL] at hc
      have hitems : b1.items = b.items := by rw [← hb1]
      have hcache : b1.dim_adjuster = p.2 := by rw [← hb1]
      have hp1 : p.1 = flatRender θ (b.dim_adjuster.getD (mkDeltas θ.bg θ.dim))
          (initIdx θ.powerline.length (countVisible b.items)) (visEnum none 0 b.items) :=
        (congrArg Prod.fst (Option.some_inj.mp hc)).symm
      have hp2 : p.2 = (if countVisible b.items = 0 then b.dim_adjuster
          else some (b.dim_adjuster.getD (mkDeltas θ.bg θ.dim))) :=
        (congrArg Prod.snd (Option.some_inj.mp hc)).symm
      have hsame : b1.dim_adjuster.getD (mkDeltas θ.bg θ.dim) =
          b.dim_adjuster.getD (mkDeltas θ.bg θ.dim) := by
        rw [hcache, hp2]
        by_cases h0 : countVisible b.items = 0
        · rw [if_pos h0]
        · rw [if_neg h0]
          rfl
      refine ⟨⟨b1.items, if countVisible b1.items = 0 then b1.dim_adjuster else some (b1.dim_adjuster.getD (mkDeltas θ.bg θ.dim))⟩, ?_⟩
      rw [create_powerline_eq θ b1 hL]
      simp only [Option.map_some', Option.some_inj, Prod.mk.injEq]
      constructor
      · rw [← hout, hp1, hitems, hsame]
      · trivial
  · rw [to_json, if_neg hp] at h ⊢
    simp only [Option.some_inj, Prod.mk.injEq] at h
    obtain ⟨h1, h2⟩ := h
    exact ⟨b, by rw [← h1, ← h2]⟩

/-- Witness for C8 on a concrete powerline theme and bar: the second
serialization of the state returned by the first yields the same list. -/
theorem claim_C8_witness :
    (to_json exThemeP (((to_json exThemeP exBarA).getD ([], ⟨[], none⟩)).2)).map Prod.fst =
      some (((to_json exThemeP exBarA).getD ([], ⟨[], none⟩)).1) := by
  obtain ⟨b2, hb⟩ := claim_C8 exThemeP exBarA
    (((to_json exThemeP exBarA).getD ([], ⟨[], none⟩)).1)
    (((to_json exThemeP exBarA).getD ([], ⟨[], none⟩)).2) rfl
  rw [hb]
  rfl

/-- C4 counterexample: with powerline rendering disabled, `to_json`
serializes the raw slot list unchanged, so the empty sentinel item does
appear in the output. -/
theorem claim_C4_counterexample :
    to_json exThemeRaw exBarEmpty = some ([I3Item.empty], exBarEmpty) ∧
    I3Item.empty.is_empty = true :=
  ⟨rfl, rfl⟩

/-- C4 (amended): with a non-empty separator glyph, no empty item appears
in the powerline-mode output; in raw mode the output is exactly the slot
list, empty items included. -/
theorem claim_C4 (θ : Theme) (b : Bar) (out : List I3Item) (b1 : Bar)
    (hsep : θ.powerline_separator ≠ "")
    (h : to_json θ b = some (out, b1)) :
    (θ.powerline_enable = true → ∀ y ∈ out, y.is_empty = false) ∧
    (θ.powerline_enable = false → out = b.items) := by
  constructor
  · intro hp y hy
    rw [to_json, if_pos hp] at h
    cases hc : create_powerline θ b with
    | none => rw [hc] at h; simp at h
    | some p =>
      rw [hc] at h
      simp only [Option.map_some', Option.some_inj, Prod.mk.injEq] at h
      obtain ⟨hout, _⟩ := h
      have hL := create_powerline_some_length_pos θ b p hc
      rw [create_powerline_eq θ b hL] at hc
      have hp1 : p.1 = flatRender θ (b.dim_adjuster.getD (mkDeltas θ.bg θ.dim))
          (initIdx θ.powerline.length (countVisible b.items)) (visEnum none 0 b.items) :=
        (congrArg Prod.fst (Option.some_inj.mp hc)).symm
      rw [← hout, hp1] at hy
      exact flatRender_not_empty θ _ hsep _ _ y hy
  · intro hp
    rw [to_json, if_neg (by simp [hp])] at h
    simp only [Option.some_inj, Prod.mk.injEq] at h
    rw [← h.1]

/-- Witness for C4 on a concrete theme and bar with an empty slot. -/
theorem claim_C4_witness :
    exThemeP.powerline_separator ≠ "" ∧
    ((exThemeP.powerline_enable = true →
        ∀ y ∈ (((to_json exThemeP exBarEA).getD ([], ⟨[], none⟩)).1), y.is_empty = false) ∧
      (exThemeP.powerline_enable = false →
        (((to_json exThemeP exBarEA).getD ([], ⟨[], none⟩)).1) = exBarEA.items)) :=
  ⟨by decide, claim_C4 exThemeP exBarEA _ _ (by decide) rfl⟩

/-- C1 counterexample: slot 0 empty, slot 1 visible.  The single visible
item is the first visible one, yet the separator emitted before it has a
background colour set (the band background fetched for the previous
slot), because the source tests the slot index `i > 0`, not visibility. -/
theorem claim_C1_counterexample :
    countVisible exBarEA.items = 1 ∧
    (exBarEA.items.getD 0 I3Item.empty).is_empty = true ∧
    (((create_powerline exThemeP exBarEA).getD ([], none)).1.getD 0 I3Item.empty).background_color
      = some ⟨64, 64, 64⟩ := by
  refine ⟨?_, ?_, ?_⟩ <;> decide

/-- C1 (amended): the separator emitted for a visible item in slot `j`
has no background iff `j = 0`; otherwise its background is computed from
the item of the immediately preceding slot `j - 1` (which may be an empty
sentinel, not the previous visible item): `theme.red` if that item is
urgent, else its explicit background colour, else the `prev_color` band
background at the cursor. -/
theorem claim_C1 (θ : Theme) (b : Bar) (out : List I3Item) (c : Option HexColor)
    (k j : Nat) (p : Option I3Item) (x : I3Item)
    (hL : 1 ≤ θ.powerline.length)
    (h : create_powerline θ b = some (out, c))
    (hk : (visEnum none 0 b.items).get? k = some (j, p, x)) :
    b.items.get? j = some x ∧
    p = (if j = 0 then none else b.items.get? (j - 1)) ∧
    ∃ s, out.get? (2 * k) = some s ∧
      s.background_color = p.map (fun q => if q.urgent.getD false then θ.red
        else q.background_color.getD (prevBand θ b k).bg) := by
  obtain ⟨hij, hx, hp⟩ := visEnum_spec b.items none 0 k j p x hk
  refine ⟨by simpa using hx, by simpa using hp, ?_⟩
  rw [create_powerline_eq θ b hL] at h
  simp only [Option.some_inj, Prod.mk.injEq] at h
  obtain ⟨hout, _⟩ := h
  have hs := flatRender_get?_sep θ (b.dim_adjuster.getD (mkDeltas θ.bg θ.dim))
    (visEnum none 0 b.items) (initIdx θ.powerline.length (countVisible b.items)) k j p x hk
  rw [← hout]
  exact ⟨_, hs, by rw [renderVisible_sep_background]; rfl⟩

/-- Witness for C1 (amended) on the bar with an empty slot 0: the visible
item sits in slot 1, its predecessor is the empty sentinel, and the
separator's background is computed from that sentinel. -/
theorem claim_C1_witness :
    exBarEA.items.get? 1 = some exItemA ∧
    (some I3Item.empty : Option I3Item) = (if 1 = 0 then none else exBarEA.items.get? (1 - 1)) ∧
    ∃ s, (((create_powerline exThemeP exBarEA).getD ([], none)).1).get? (2 * 0) = some s ∧
      s.background_color = (some I3Item.empty : Option I3Item).map
        (fun q => if q.urgent.getD false then exThemeP.red
          else q.background_color.getD (prevBand exThemeP exBarEA 0).bg) :=
  claim_C1 exThemeP exBarEA (((create_powerline exThemeP exBarEA).getD ([], none)).1)
    (((create_powerline exThemeP exBarEA).getD ([], none)).2) 0 1 (some I3Item.empty) exItemA
    (by decide) rfl (by decide)

/-- C7: the powerline renderer emits exactly one (separator, content)
pair per visible item in slot order, so the output has length twice the
visible count; each content item's text is the original text, with the
dim colour's encoding replaced by the adjusted colour's encoding, padded
by one space on each side, with separator disabled and zero separator
width. -/
theorem claim_C7 (θ : Theme) (b : Bar) (out : List I3Item) (c : Option HexColor)
    (hL : 1 ≤ θ.powerline.length)
    (h : create_powerline θ b = some (out, c)) :
    out.length = 2 * countVisible b.items ∧
    ∀ k j p x, (visEnum none 0 b.items).get? k = some (j, p, x) →
      ∃ it, out.get? (2 * k + 1) = some it ∧
        it.full_text = " " ++ (x.full_text.replace θ.dim.toDisplay
          (applyAdjuster (b.dim_adjuster.getD (mkDeltas θ.bg θ.dim))
            (itemBgOf θ x (assignedBand θ b k))).toDisplay) ++ " " ∧
        it.separator = some false ∧
        it.separator_block_width_px = some 0 := by
  rw [create_powerline_eq θ b hL] at h
  simp only [Option.some_inj, Prod.mk.injEq] at h
  obtain ⟨hout, _⟩ := h
  constructor
  · rw [← hout, flatRender_length, visEnum_length]
  · intro k j p x hk
    have hcnt := flatRender_get?_content θ (b.dim_adjuster.getD (mkDeltas θ.bg θ.dim))
      (visEnum none 0 b.items) (initIdx θ.powerline.length (countVisible b.items)) k j p x hk
    rw [← hout]
    refine ⟨_, hcnt, ?_, ?_, ?_⟩
    · rw [renderVisible_content_eq]
      rfl
    · rw [renderVisible_content_eq]
    · rw [renderVisible_content_eq]

/-- Witness for C7 on a concrete theme and bar with an empty slot. -/
theorem claim_C7_witness :
    (((create_powerline exThemeP exBarEA).getD ([], none)).1).length =
      2 * countVisible exBarEA.items ∧
    ∀ k j p x, (visEnum none 0 exBarEA.items).get? k = some (j, p, x) →
      ∃ it, (((create_powerline exThemeP exBarEA).getD ([], none)).1).get? (2 * k + 1) =
          some it ∧
        it.full_text = " " ++ (x.full_text.replace exThemeP.dim.toDisplay
          (applyAdjuster (exBarEA.dim_adjuster.getD (mkDeltas exThemeP.bg exThemeP.dim))
            (itemBgOf exThemeP x (assignedBand exThemeP exBarEA k))).toDisplay) ++ " " ∧
        it.separator = some false ∧
        it.separator_block_width_px = some 0 :=
  claim_C7 exThemeP exBarEA (((create_powerline exThemeP exBarEA).getD ([], none)).1)
    (((create_powerline exThemeP exBarEA).getD ([], none)).2) (by decide) rfl

/-- C6 counterexample: theme background `(10,10,10)`, dim `(8,8,8)`, item
coloured dim on explicit background `(6,6,6)`: the per-channel delta is
2, so the adjusted colour is `(8,8,8) = theme.dim` although the assigned
background differs from the adjuster's reference background. -/
theorem claim_C6_counterexample :
    exItem6.color = some exTheme6.dim ∧
    itemBgOf exTheme6 exItem6 (assignedBand exTheme6 exBar6 0) ≠ exTheme6.bg ∧
    (((create_powerline exTheme6 exBar6).getD ([], none)).1.getD 1 I3Item.empty).color =
      some exTheme6.dim := by
  refine ⟨?_, ?_, ?_⟩ <;> decide

/-- C6 (amended): for a non-urgent item whose colour equals `theme.dim`,
the powerline content colour equals the adjusted colour
`saturating_add(item_bg, |dim - theme.bg|)` per channel; when moreover
the dim colour dominates the reference background channelwise, no channel
saturates, and the assigned background differs from the reference
background, the rendered colour differs from `theme.dim` (without those
conditions it can coincide with `theme.dim`). -/
theorem claim_C6 (θ : Theme) (b : Bar) (out : List I3Item) (c : Option HexColor)
    (k j : Nat) (p : Option I3Item) (x : I3Item)
    (hL : 1 ≤ θ.powerline.length)
    (hca : b.dim_adjuster = none)
    (h : create_powerline θ b = some (out, c))
    (hk : (visEnum none 0 b.items).get? k = some (j, p, x))
    (hu : x.urgent.getD false = false)
    (hcol : x.color = some θ.dim) :
    ∃ it, out.get? (2 * k + 1) = some it ∧
      it.color = some (applyAdjuster (mkDeltas θ.bg θ.dim) (itemBgOf θ x (assignedBand θ b k))) ∧
      ((θ.bg.r ≤ θ.dim.r ∧ θ.bg.g ≤ θ.dim.g ∧ θ.bg.b ≤ θ.dim.b) →
        (itemBgOf θ x (assignedBand θ b k)).r + (θ.dim.r - θ.bg.r) ≤ 255 →
        (itemBgOf θ x (assignedBand θ b k)).g + (θ.dim.g - θ.bg.g) ≤ 255 →
        (itemBgOf θ x (assignedBand θ b k)).b + (θ.dim.b - θ.bg.b) ≤ 255 →
        itemBgOf θ x (assignedBand θ b k) ≠ θ.bg →
        it.color ≠ some θ.dim) := by
  rw [create_powerline_eq θ b hL] at h
  simp only [Option.some_inj, Prod.mk.injEq] at h
  obtain ⟨hout, _⟩ := h
  have hcnt := flatRender_get?_content θ (b.dim_adjuster.getD (mkDeltas θ.bg θ.dim))
    (visEnum none 0 b.items) (initIdx θ.powerline.length (countVisible b.items)) k j p x hk
  rw [← hout]
  have hcoleq : (renderVisible θ (toString j) (b.dim_adjuster.getD (mkDeltas θ.bg θ.dim)) p
      (bandAt θ (initIdx θ.powerline.length (countVisible b.items) + k))
      (bandAt θ (initIdx θ.powerline.length (countVisible b.items) + k + 1)) x).2.color =
      some (applyAdjuster (mkDeltas θ.bg θ.dim) (itemBgOf θ x (assignedBand θ b k))) := by
    rw [renderVisible_content_eq, hca]
    simp only [Option.getD_none]
    simp [contentColor, hu, hcol]
    rfl
  refine ⟨_, hcnt, hcoleq, ?_⟩
  intro hmono hr hg hb0 hne heq
  rw [hcoleq] at heq
  simp only [Option.some_inj] at heq
  obtain ⟨hmr, hmg, hmb⟩ := hmono
  have habs : ∀ a c2 : Nat, c2 ≤ a → u8_abs_diff a c2 = a - c2 := by
    intro a c2 hac
    unfold u8_abs_diff
    split <;> omega
  have hdel : mkDeltas θ.bg θ.dim =
      ⟨θ.dim.r - θ.bg.r, θ.dim.g - θ.bg.g, θ.dim.b - θ.bg.b⟩ := by
    unfold mkDeltas
    rw [habs _ _ hmr, habs _ _ hmg, habs _ _ hmb]
  rw [hdel] at heq
  simp only [applyAdjuster, u8_saturating_add] at heq
  rw [hexColor_eq_iff] at heq
  obtain ⟨e1, e2, e3⟩ := heq
  have f1 : min (θ.dim.r - θ.bg.r + (itemBgOf θ x (assignedBand θ b k)).r) 255 = θ.dim.r := e1
  have f2 : min (θ.dim.g - θ.bg.g + (itemBgOf θ x (assignedBand θ b k)).g) 255 = θ.dim.g := e2
  have f3 : min (θ.dim.b - θ.bg.b + (itemBgOf θ x (assignedBand θ b k)).b) 255 = θ.dim.b := e3
  apply hne
  rw [hexColor_eq_iff]
  refine ⟨by omega, by omega, by omega⟩

/-- Witness for C6 (amended) on a concrete dim-coloured item whose
adjustment does not saturate. -/
theorem claim_C6_witness :
    ∃ it, (((create_powerline exThemeP exBar6w).getD ([], none)).1).get? (2 * 0 + 1) = some it ∧
      it.color = some (applyAdjuster (mkDeltas exThemeP.bg exThemeP.dim)
        (itemBgOf exThemeP exItem6w (assignedBand exThemeP exBar6w 0))) ∧
      ((exThemeP.bg.r ≤ exThemeP.dim.r ∧ exThemeP.bg.g ≤ exThemeP.dim.g ∧
          exThemeP.bg.b ≤ exThemeP.dim.b) →
        (itemBgOf exThemeP exItem6w (assignedBand exThemeP exBar6w 0)).r +
          (exThemeP.dim.r - exThemeP.bg.r) ≤ 255 →
        (itemBgOf exThemeP exItem6w (assignedBand exThemeP exBar6w 0)).g +
          (exThemeP.dim.g - exThemeP.bg.g) ≤ 255 →
        (itemBgOf exThemeP exItem6w (assignedBand exThemeP exBar6w 0)).b +
          (exThemeP.dim.b - exThemeP.bg.b) ≤ 255 →
        itemBgOf exThemeP exItem6w (assignedBand exThemeP exBar6w 0) ≠ exThemeP.bg →
        it.color ≠ some exThemeP.dim) :=
  claim_C6 exThemeP exBar6w (((create_powerline exThemeP exBar6w).getD ([], none)).1)
    (((create_powerline exThemeP exBar6w).getD ([], none)).2) 0 0 none exItem6w
    (by decide) rfl rfl (by decide) (by decide) (by decide)
